import Mathlib

/-!
Verification of the `sxul/wol` Wake-on-LAN command-line program
(`src/main.rs`) against its natural-language specification.

Rust strings are modelled as lists of characters (`RStr`); `str::len`
(UTF-8 byte length) is modelled by summing `Char.utf8Size`.  Fallible
operations return `Option` or `Except`.  The socket and the operating
system (interface enumeration, bind, set_broadcast, send_to) are external
collaborators and are modelled by an oracle environment `Env`; everything
else is translated directly from the source.
-/

set_option autoImplicit false

namespace Wol

/-- Model of a Rust `String` / `&str` as a list of characters. -/
abbrev RStr := List Char

/-- Model of Rust `str::len`: the number of UTF-8 bytes of the string. -/
def rustLen (s : RStr) : Nat := (s.map Char.utf8Size).sum

/-- Model of Rust `str::split(sep)` collected into a vector: splitting an
empty string yields one empty part, and every occurrence of the separator
starts a new part. -/
def splitCh (sep : Char) : RStr → List RStr
  | [] => [[]]
  | c :: cs =>
    if c = sep then [] :: splitCh sep cs
    else
      match splitCh sep cs with
      | [] => [[c]]
      | p :: ps => (c :: p) :: ps

/-- Model of Rust `str::to_uppercase` (character-wise ASCII uppercasing,
which is exact for the ASCII MAC strings this program manipulates). -/
def toUpperStr (s : RStr) : RStr := s.map Char.toUpper

/-- Model of Rust `char::is_whitespace`: the Unicode `White_Space`
property (U+0009-U+000D, U+0020, U+0085, U+00A0, U+1680, U+2000-U+200A,
U+2028, U+2029, U+202F, U+205F, U+3000). -/
def rustIsWhitespace (c : Char) : Bool :=
  decide ((0x09 ≤ c.toNat ∧ c.toNat ≤ 0x0D) ∨ c.toNat = 0x20 ∨
    c.toNat = 0x85 ∨ c.toNat = 0xA0 ∨ c.toNat = 0x1680 ∨
    (0x2000 ≤ c.toNat ∧ c.toNat ≤ 0x200A) ∨ c.toNat = 0x2028 ∨
    c.toNat = 0x2029 ∨ c.toNat = 0x202F ∨ c.toNat = 0x205F ∨
    c.toNat = 0x3000)

/-- Model of Rust `str::trim`: strip leading and trailing Unicode
whitespace. -/
def rustTrim (s : RStr) : RStr :=
  ((s.dropWhile rustIsWhitespace).reverse.dropWhile rustIsWhitespace).reverse

/-- Model of `line.starts_with('#')` (src/main.rs line 212). -/
def startsWithHash : RStr → Bool
  | '#' :: _ => true
  | _ => false

/-- Model of `line.starts_with("//")` (src/main.rs line 216). -/
def startsWithSlashes : RStr → Bool
  | '/' :: '/' :: _ => true
  | _ => false

/-- Model of Rust `char::to_digit(16)`: hexadecimal digit value of a
character, accepting both lower- and upper-case letters. -/
def hexDigitVal (c : Char) : Option Nat :=
  if '0' ≤ c ∧ c ≤ '9' then some (c.toNat - 48)
  else if 'a' ≤ c ∧ c ≤ 'f' then some (c.toNat - 87)
  else if 'A' ≤ c ∧ c ≤ 'F' then some (c.toNat - 55)
  else none

/-- Accumulating loop of `u8::from_str_radix(_, 16)` for a non-negative
number: each character must be a hex digit and the accumulated value must
stay within `u8` range (checked multiply and add). -/
def hexAccPos : RStr → Nat → Option Nat
  | [], acc => some acc
  | c :: cs, acc =>
    match hexDigitVal c with
    | none => none
    | some d => if acc * 16 + d ≤ 255 then hexAccPos cs (acc * 16 + d) else none

/-- Model of Rust `u8::from_str_radix(s, 16)` (src/main.rs line 153):
a bare sign is rejected, a leading `+` is stripped, and — `u8` being an
unsigned type — a leading `-` is never stripped, so it fails below as an
invalid digit; the digits are accumulated with `u8` overflow checking. -/
def fromStrRadix16 (s : RStr) : Option Nat :=
  match s with
  | [] => none
  | ['+'] => none
  | ['-'] => none
  | '+' :: rest => hexAccPos rest 0
  | _ => hexAccPos s 0

/-- The distinct MAC-validation failures of the program: length and
separator checks from `main` (lines 92 and 99), part count, part length
and hex-parse failures from `send_magic_packet` (lines 143, 151, 155). -/
inductive ValErr where
  | badLen
  | noSep
  | partCount
  | partLen
  | notHex
deriving DecidableEq

/-- Model of src/main.rs lines 139-145: split the MAC string by `:`;
if that does not give exactly 6 parts, re-split by `-`; if that also
fails to give 6 parts, report the part-count error. -/
def macSplit (s : RStr) : Except ValErr (List RStr) :=
  let parts := splitCh ':' s
  if parts.length ≠ 6 then
    let parts2 := splitCh '-' s
    if parts2.length ≠ 6 then .error .partCount else .ok parts2
  else .ok parts

/-- Model of the per-part loop of src/main.rs lines 148-157: for each part
in order, first check that it is exactly 2 bytes long, then parse it as a
base-16 byte; stop at the first failing part. -/
def parseParts : List RStr → Except ValErr (List Nat)
  | [] => .ok []
  | p :: rest =>
    if rustLen p ≠ 2 then .error .partLen
    else
      match fromStrRadix16 p with
      | none => .error .notHex
      | some v =>
        match parseParts rest with
        | .error e => .error e
        | .ok vs => .ok (v :: vs)

/-- The MAC-parsing prefix of `send_magic_packet` (src/main.rs lines
139-157): split into exactly 6 parts and parse each as a byte. -/
def parseMacBytes (s : RStr) : Except ValErr (List Nat) :=
  match macSplit s with
  | .error e => .error e
  | .ok parts => parseParts parts

/-- The complete validation pipeline a MAC string goes through, in
execution order: the length and separator checks of `main` (src/main.rs
lines 92-105), the uppercasing of line 108, then the split and per-part
checks of `send_magic_packet` (lines 139-157). -/
def validateMac (s : RStr) : Except ValErr (List Nat) :=
  if rustLen s ≠ 17 then .error .badLen
  else if !(s.contains ':') && !(s.contains '-') then .error .noSep
  else parseMacBytes (toUpperStr s)

/-- Model of the constant `WOL_PORT` (src/main.rs line 9). -/
def WOL_PORT : Nat := 9

/-- Model of the constant `MAGIC_HEADER` (src/main.rs line 10). -/
def MAGIC_HEADER : List Nat := [0xFF, 0xFF, 0xFF, 0xFF, 0xFF, 0xFF]

/-- Model of the packet construction of src/main.rs lines 159-165: the
102-byte buffer whose first 6 bytes are the magic header and whose
remaining 96 bytes are 16 copies of the 6 MAC bytes. -/
def buildMagicPacket (macBytes : List Nat) : List Nat :=
  MAGIC_HEADER ++ (List.replicate 16 macBytes).flatten

/-- Model of `ipnet::Ipv4Net`: the stored IPv4 address (as a 32-bit value)
and the prefix length. -/
structure Ipv4NetT where
  addr : Nat
  prefixLen : Nat
deriving DecidableEq

/-- Model of `Ipv4Net::hostmask`: the complement of the netmask, i.e. the
low `32 - prefixLen` bits set. -/
def hostmask (n : Ipv4NetT) : Nat := 2 ^ (32 - n.prefixLen) - 1

/-- Model of `Ipv4Net::netmask`: `u32::MAX` shifted left by
`32 - prefixLen`, truncated to 32 bits. -/
def netmask (n : Ipv4NetT) : Nat := ((2 ^ 32 - 1) <<< (32 - n.prefixLen)) % 2 ^ 32

/-- Model of `Ipv4Net::broadcast` (used at src/main.rs line 167): the
stored address OR-ed with the hostmask. -/
def broadcast (n : Ipv4NetT) : Nat := n.addr ||| hostmask n

/-- Decimal digit value of a character, as used by the standard library
integer parsers. -/
def decDigitVal (c : Char) : Option Nat :=
  if '0' ≤ c ∧ c ≤ '9' then some (c.toNat - 48) else none

/-- Model of one dotted-decimal octet as accepted by
`Ipv4Addr::from_str`: one to three decimal digits, no leading zero, value
at most 255. -/
def parseOctet (s : RStr) : Option Nat :=
  match s.mapM decDigitVal with
  | none => none
  | some ds =>
    if ds = [] then none
    else if 3 < ds.length then none
    else if ds.length > 1 ∧ ds.headD 0 = 0 then none
    else
      let v := ds.foldl (fun acc d => acc * 10 + d) 0
      if v ≤ 255 then some v else none

/-- Model of `Ipv4Addr::from_str`: four dot-separated octets, returned as
the 32-bit address value. -/
def parseIpv4Addr (s : RStr) : Option Nat :=
  match (splitCh '.' s).mapM parseOctet with
  | some [a, b, c, d] => some (((a * 256 + b) * 256 + c) * 256 + d)
  | _ => none

/-- Model of `u8::from_str` for the prefix-length field: an optional
leading `+` followed by a non-empty run of decimal digits whose value
fits in a `u8`. -/
def parseDecU8 (s : RStr) : Option Nat :=
  let body := match s with
    | '+' :: rest => rest
    | _ => s
  if body = [] then none
  else
    match body.mapM decDigitVal with
    | none => none
    | some ds =>
      let v := ds.foldl (fun acc d => acc * 10 + d) 0
      if v ≤ 255 then some v else none

/-- Split a string at its first occurrence of a character, as
`str::split_once` does. -/
def splitOnce (sep : Char) : RStr → Option (RStr × RStr)
  | [] => none
  | c :: cs =>
    if c = sep then some ([], cs)
    else
      match splitOnce sep cs with
      | none => none
      | some (a, b) => some (c :: a, b)

/-- Model of `"…".parse::<Ipv4Net>()` (src/main.rs line 74): an IPv4
address, a slash, and a prefix length of at most 32. -/
def parseIpv4Net (s : RStr) : Option Ipv4NetT :=
  match splitOnce '/' s with
  | none => none
  | some (a, p) =>
    match parseIpv4Addr a, parseDecU8 p with
    | some addr, some pl => if pl ≤ 32 then some ⟨addr, pl⟩ else none
    | _, _ => none

/-- Model of `u8::count_ones` for an octet value below 256: the sum of
its eight bits. -/
def countOnes (o : Nat) : Nat :=
  o % 2 + o / 2 % 2 + o / 4 % 2 + o / 8 % 2 +
  o / 16 % 2 + o / 32 % 2 + o / 64 % 2 + o / 128 % 2

/-- Model of the fold of src/main.rs lines 185-188: the prefix length
derived from a netmask given as its four octets, by summing the popcount
of each octet. -/
def prefixLenOfMask (octets : List Nat) : Nat :=
  octets.foldl (fun acc o => acc + countOnes o) 0

/-- Model of `get_local_ip_nets` (src/main.rs lines 177-195): the OS
hands back the IPv4 interfaces as pairs of an address value and the four
netmask octets; each becomes one network with the popcount-derived
prefix length. -/
def get_local_ip_nets (ifaces : List (Nat × List Nat)) : List Ipv4NetT :=
  ifaces.map fun i => ⟨i.1, prefixLenOfMask i.2⟩

/-- Outcome of the socket operations (`set_broadcast` then `send_to`)
attempted for one MAC on one network. -/
inductive SockRes where
  | ok
  | broadcastFail
  | sendFail
deriving DecidableEq

/-- The errors `send_magic_packet` can return: a MAC-parse failure or a
socket failure. -/
inductive SendErr where
  | parse (e : ValErr)
  | broadcastFail
  | sendFail
deriving DecidableEq

/-- Oracle environment standing for the operating system: whether
interface enumeration panics, the enumerated IPv4 interfaces, whether the
UDP bind of src/main.rs line 116 fails (which the code unwraps), and the
outcome of the socket operations per MAC and network. -/
structure Env where
  ifEnumFails : Bool
  ifV4 : List (Nat × List Nat)
  bindFails : Bool
  sockOp : RStr → Ipv4NetT → SockRes

/-- One UDP datagram as handed to `send_to`: destination address and
port, and the payload bytes. -/
structure Packet where
  destAddr : Nat
  destPort : Nat
  payload : List Nat
deriving DecidableEq

/-- The lines the program prints, one constructor per `println!` site. -/
inductive Msg where
  | fileError
  | cidrError (s : RStr)
  | macLenError (s : RStr)
  | macSepError (s : RStr)
  | sendError (e : SendErr) (mac : RStr)
  | verboseSent (mac : RStr) (net : Ipv4NetT)
deriving DecidableEq

/-- Model of `send_magic_packet` (src/main.rs lines 134-175): parse the
MAC, build the 102-byte packet, compute the broadcast destination on port
9, then enable broadcast and send — the latter two can fail through the
oracle. -/
def send_magic_packet (env : Env) (targetMac : RStr) (ipNet : Ipv4NetT) :
    Except SendErr Packet :=
  match parseMacBytes targetMac with
  | .error e => .error (.parse e)
  | .ok macBytes =>
    let packet := buildMagicPacket macBytes
    let dest := (broadcast ipNet, WOL_PORT)
    match env.sockOp targetMac ipNet with
    | .broadcastFail => .error .broadcastFail
    | .sendFail => .error .sendFail
    | .ok => .ok ⟨dest.1, dest.2, packet⟩

/-- The network loop of `send_wol_packet` (src/main.rs lines 117-131):
send to each network in turn; on an error, print it with the MAC and
break; on success, print the verbose line when requested. -/
def sendLoop (env : Env) (mac : RStr) (nets : List Ipv4NetT) (v : Bool) :
    List Msg × List Packet :=
  match nets with
  | [] => ([], [])
  | n :: rest =>
    match send_magic_packet env mac n with
    | .error e => ([.sendError e mac], [])
    | .ok pkt =>
      let r := sendLoop env mac rest v
      ((if v then [.verboseSent mac n] else []) ++ r.1, pkt :: r.2)

/-- Model of `send_wol_packet` (src/main.rs lines 114-132): bind the UDP
socket — the code unwraps the result, so a bind failure is a panic,
modelled as `none` — then run the network loop. -/
def send_wol_packet (env : Env) (mac : RStr) (nets : List Ipv4NetT)
    (v : Bool) : Option (List Msg × List Packet) :=
  if env.bindFails then none else some (sendLoop env mac nets v)

/-- The per-MAC loop of `main` (src/main.rs lines 90-111): the length and
separator checks with their error lines, the uppercasing, and the call to
`send_wol_packet`.  The third component records whether the run panicked
(at the unwrapped bind), which aborts the loop. -/
def macLoop (env : Env) (nets : List Ipv4NetT) (v : Bool) :
    List RStr → List Msg × List Packet × Bool
  | [] => ([], [], false)
  | m :: rest =>
    if rustLen m ≠ 17 then
      let r := macLoop env nets v rest
      (.macLenError m :: r.1, r.2.1, r.2.2)
    else if !(m.contains ':') && !(m.contains '-') then
      let r := macLoop env nets v rest
      (.macSepError m :: r.1, r.2.1, r.2.2)
    else
      match send_wol_packet env (toUpperStr m) nets v with
      | none => ([], [], true)
      | some s =>
        let r := macLoop env nets v rest
        (s.1 ++ r.1, s.2 ++ r.2.1, r.2.2)

/-- Model of `read_mac_addresses_from_file` (src/main.rs lines 197-231):
the file is a list of line-read results, `none` standing for a read
error, on which the loop breaks.  Each good line is trimmed; empty lines,
`#` lines and `//` lines are skipped; lines failing the length or
separator check are skipped silently; the rest are collected. -/
def read_mac_addresses_from_file : List (Option RStr) → List RStr
  | [] => []
  | none :: _ => []
  | some l :: rest =>
    let t := rustTrim l
    if t = [] then read_mac_addresses_from_file rest
    else if startsWithHash t then read_mac_addresses_from_file rest
    else if startsWithSlashes t then read_mac_addresses_from_file rest
    else if rustLen t ≠ 17 then read_mac_addresses_from_file rest
    else if !(t.contains ':') && !(t.contains '-') then
      read_mac_addresses_from_file rest
    else t :: read_mac_addresses_from_file rest

/-- The file argument: whether the path exists and is a regular file, and
the line-read results. -/
structure FileInput where
  okPath : Bool
  lines : List (Option RStr)

/-- The resolved command-line input handed to `main` by clap. -/
structure Input where
  fileArg : Option FileInput
  cliMacs : List RStr
  netArgs : Option (List RStr)
  verbose : Bool

/-- How a run ends: an early `std::process::exit`, a panic from an
`unwrap`, or normal completion. -/
inductive Status where
  | exited (code : Nat)
  | panicked
  | completed
deriving DecidableEq

/-- Observable behaviour of one program run: how it ended, what it
printed, and the datagrams it sent. -/
structure RunOut where
  status : Status
  msgs : List Msg
  packets : List Packet
deriving DecidableEq

/-- The network-option parse of src/main.rs lines 70-85: parse each CIDR
string in order, exiting at the first failure. -/
def parseNets : List RStr → Except RStr (List Ipv4NetT)
  | [] => .ok []
  | s :: rest =>
    match parseIpv4Net s with
    | none => .error s
    | some n =>
      match parseNets rest with
      | .error t => .error t
      | .ok ns => .ok (n :: ns)

/-- Model of `main` (src/main.rs lines 12-112): resolve the MAC list
(file check and read, or positional arguments), resolve the networks
(CIDR parse with fatal exit, or local-interface discovery whose `unwrap`
can panic), then run the per-MAC loop. -/
def wolMain (env : Env) (inp : Input) : RunOut :=
  let macsRes : Except RunOut (List RStr) :=
    match inp.fileArg with
    | some f =>
      if !f.okPath then .error ⟨.exited 1, [.fileError], []⟩
      else .ok (read_mac_addresses_from_file f.lines)
    | none => .ok inp.cliMacs
  match macsRes with
  | .error out => out
  | .ok macs =>
    let netsRes : Except RunOut (List Ipv4NetT) :=
      match inp.netArgs with
      | some args =>
        match parseNets args with
        | .error s => .error ⟨.exited 1, [.cidrError s], []⟩
        | .ok ns => .ok ns
      | none =>
        if env.ifEnumFails then .error ⟨.panicked, [], []⟩
        else .ok (get_local_ip_nets env.ifV4)
    match netsRes with
    | .error out => out
    | .ok nets =>
      let r := macLoop env nets inp.verbose macs
      ⟨if r.2.2 then .panicked else .completed, r.1, r.2.1⟩

/-- Uppercase hexadecimal digit character for a value below 16.  This is
spec-side vocabulary (the source has no formatter): it realises the
specification's "2-digit uppercase hexadecimal octets". -/
def toHexDigit (n : Nat) : Char :=
  if n < 10 then Char.ofNat (48 + n) else Char.ofNat (55 + n)

/-- One byte rendered as two uppercase hexadecimal digits (spec-side). -/
def formatByte (b : Nat) : RStr := [toHexDigit (b / 16), toHexDigit (b % 16)]

/-- Bytes rendered as uppercase hexadecimal octets joined by `:`
(spec-side, for the round-trip property). -/
def formatMac : List Nat → RStr
  | [] => []
  | [b] => formatByte b
  | b :: rest => formatByte b ++ ':' :: formatMac rest

/-! ### Helper lemmas -/

theorem rustLen_nil : rustLen [] = 0 := rfl

theorem rustLen_cons (c : Char) (s : RStr) :
    rustLen (c :: s) = c.utf8Size + rustLen s := rfl

theorem rustLen_append (s t : RStr) :
    rustLen (s ++ t) = rustLen s + rustLen t := by
  induction s with
  | nil => simp [rustLen_nil]
  | cons c cs ih => simp [rustLen_cons, ih]; omega

theorem splitCh_no_sep (sep : Char) (p : RStr) (h : ∀ c ∈ p, c ≠ sep) :
    splitCh sep p = [p] := by
  induction p with
  | nil => rfl
  | cons c cs ih =>
    have hc : c ≠ sep := h c (by simp)
    simp only [splitCh, if_neg hc, ih fun x hx => h x (by simp [hx])]

theorem splitCh_append_sep (sep : Char) (p rest : RStr)
    (h : ∀ c ∈ p, c ≠ sep) :
    splitCh sep (p ++ sep :: rest) = p :: splitCh sep rest := by
  induction p with
  | nil => simp [splitCh]
  | cons c cs ih =>
    have hc : c ≠ sep := h c (by simp)
    have ih2 := ih fun x hx => h x (by simp [hx])
    simp only [List.cons_append, splitCh, if_neg hc, List.append_eq, ih2]

set_option maxRecDepth 10000 in
theorem formatByte_len : ∀ b < 256, rustLen (formatByte b) = 2 := by decide

set_option maxRecDepth 10000 in
theorem formatByte_ne_colon : ∀ b < 256, ∀ c ∈ formatByte b, c ≠ ':' := by
  decide

set_option maxRecDepth 10000 in
theorem formatByte_upper : ∀ b < 256, toUpperStr (formatByte b) = formatByte b := by
  decide

set_option maxRecDepth 10000 in
theorem formatByte_parse : ∀ b < 256, fromStrRadix16 (formatByte b) = some b := by
  decide

/-! ### Claim theorems -/

/-- C1: for every valid 6-byte MAC, the constructed magic packet is
exactly 102 bytes; bytes [0..6) are all `0xFF`, and for each `k < 16` the
6-byte window at offset `6 + 6 * k` equals the MAC bytes. -/
theorem magic_packet_structure (m : List Nat) (h : m.length = 6) :
    (buildMagicPacket m).length = 102 ∧
    (buildMagicPacket m).take 6 = [0xFF, 0xFF, 0xFF, 0xFF, 0xFF, 0xFF] ∧
    ∀ k, k < 16 → ((buildMagicPacket m).drop (6 + 6 * k)).take 6 = m := by
  obtain ⟨a, b, c, d, e, f, rfl⟩ : ∃ a b c d e f, m = [a, b, c, d, e, f] := by
    rcases m with _ | ⟨a, _ | ⟨b, _ | ⟨c, _ | ⟨d, _ | ⟨e, _ | ⟨f, _ | ⟨g, t⟩⟩⟩⟩⟩⟩⟩ <;>
      first
        | exact ⟨a, b, c, d, e, f, rfl⟩
        | simp at h
  refine ⟨by rfl, by rfl, ?_⟩
  intro k hk
  interval_cases k <;> rfl

/-- Witness for C1 at the MAC bytes `00:1A:2B:3C:4D:5E` and window 7. -/
theorem magic_packet_structure_witness :
    (buildMagicPacket [0x00, 0x1A, 0x2B, 0x3C, 0x4D, 0x5E]).length = 102 ∧
    (buildMagicPacket [0x00, 0x1A, 0x2B, 0x3C, 0x4D, 0x5E]).take 6 =
      [0xFF, 0xFF, 0xFF, 0xFF, 0xFF, 0xFF] ∧
    ((buildMagicPacket [0x00, 0x1A, 0x2B, 0x3C, 0x4D, 0x5E]).drop (6 + 6 * 7)).take 6 =
      [0x00, 0x1A, 0x2B, 0x3C, 0x4D, 0x5E] := by
  obtain ⟨h1, h2, h3⟩ :=
    magic_packet_structure [0x00, 0x1A, 0x2B, 0x3C, 0x4D, 0x5E] (by decide)
  exact ⟨h1, h2, h3 7 (by decide)⟩

/-- C2: the validation pipeline applies its checks in order, each with
its own distinct failure: (1) a string whose length is not 17 is always
rejected with the length error, regardless of content; (2) at length 17,
a string with neither `:` nor `-` gets the separator error; (3) when both
splits fail to give 6 parts the part-count error is reported; (4) a part
that is not exactly 2 bytes long gets the part-length error before its
content is looked at; (5) a 2-byte part that is not hexadecimal gets the
hex error; and when the split succeeds the result is exactly the per-part
parse. -/
theorem mac_validation_order :
    (∀ s : RStr, rustLen s ≠ 17 → validateMac s = .error .badLen) ∧
    (∀ s : RStr, rustLen s = 17 → s.contains ':' = false →
      s.contains '-' = false → validateMac s = .error .noSep) ∧
    (∀ s : RStr, rustLen s = 17 → (s.contains ':' || s.contains '-') = true →
      (splitCh ':' (toUpperStr s)).length ≠ 6 →
      (splitCh '-' (toUpperStr s)).length ≠ 6 →
      validateMac s = .error .partCount) ∧
    (∀ (p : RStr) (ps : List RStr), rustLen p ≠ 2 →
      parseParts (p :: ps) = .error .partLen) ∧
    (∀ (p : RStr) (ps : List RStr), rustLen p = 2 → fromStrRadix16 p = none →
      parseParts (p :: ps) = .error .notHex) ∧
    (∀ (s : RStr) (parts : List RStr), rustLen s = 17 →
      (s.contains ':' || s.contains '-') = true →
      macSplit (toUpperStr s) = .ok parts →
      validateMac s = parseParts parts) := by
  refine ⟨?_, ?_, ?_, ?_, ?_, ?_⟩
  · intro s h
    rw [validateMac, if_pos h]
  · intro s h hc hd
    rw [validateMac, if_neg (by omega),
      if_pos (show (!(s.contains ':') && !(s.contains '-')) = true by
        rw [hc, hd]; rfl)]
  · intro s h hor h6c h6d
    have hsep : ¬((!(s.contains ':') && !(s.contains '-')) = true) := by
      cases hc : s.contains ':' <;> cases hd : s.contains '-' <;> simp_all
    rw [validateMac, if_neg (by omega), if_neg hsep, parseMacBytes,
      macSplit]
    simp only [if_pos h6c, if_pos h6d]
  · intro p ps h
    rw [parseParts, if_pos h]
  · intro p ps h hp
    rw [parseParts, if_neg (by omega), hp]
  · intro s parts h hor hsp
    have hsep : ¬((!(s.contains ':') && !(s.contains '-')) = true) := by
      cases hc : s.contains ':' <;> cases hd : s.contains '-' <;> simp_all
    rw [validateMac, if_neg (by omega), if_neg hsep, parseMacBytes, hsp]

/-- Witness for C2: one concrete input per check, including the signed
part `-0`, which `u8::from_str_radix` rejects as not hexadecimal. -/
theorem mac_validation_order_witness :
    validateMac ("00:11".toList) = .error .badLen ∧
    validateMac ("00112233445566778".toList) = .error .noSep ∧
    validateMac ("0011223344556677:".toList) = .error .partCount ∧
    parseParts [['0'], ['1', '1']] = .error .partLen ∧
    parseParts [['G', 'G']] = .error .notHex ∧
    parseParts [['-', '0'], ['1', '1']] = .error .notHex ∧
    validateMac ("00:11:22:33:44:55".toList) =
      parseParts [['0', '0'], ['1', '1'], ['2', '2'], ['3', '3'], ['4', '4'], ['5', '5']] := by
  exact ⟨mac_validation_order.1 _ (by decide),
    mac_validation_order.2.1 _ (by decide) (by decide) (by decide),
    mac_validation_order.2.2.1 _ (by decide) (by decide) (by decide) (by decide),
    mac_validation_order.2.2.2.1 _ _ (by decide),
    mac_validation_order.2.2.2.2.1 _ _ (by decide) (by decide),
    mac_validation_order.2.2.2.2.1 _ _ (by decide) (by decide),
    mac_validation_order.2.2.2.2.2 _ _ (by decide) (by decide) (by rfl)⟩

theorem colon_utf8Size : Char.utf8Size ':' = 1 := by decide

theorem colon_toUpper : Char.toUpper ':' = ':' := by decide

/-- C5: formatting any 6 bytes as uppercase 2-digit hex octets joined by
`:` and running the result through the program's validation pipeline
yields the same 6 bytes. -/
theorem mac_roundtrip (b0 b1 b2 b3 b4 b5 : Nat)
    (h0 : b0 < 256) (h1 : b1 < 256) (h2 : b2 < 256)
    (h3 : b3 < 256) (h4 : b4 < 256) (h5 : b5 < 256) :
    validateMac (formatMac [b0, b1, b2, b3, b4, b5]) =
      .ok [b0, b1, b2, b3, b4, b5] := by
  have hfmt : formatMac [b0, b1, b2, b3, b4, b5] =
      formatByte b0 ++ ':' :: (formatByte b1 ++ ':' :: (formatByte b2 ++
        ':' :: (formatByte b3 ++ ':' :: (formatByte b4 ++ ':' ::
          formatByte b5)))) := by
    simp [formatMac]
  have hlen : rustLen (formatMac [b0, b1, b2, b3, b4, b5]) = 17 := by
    rw [hfmt]
    simp [rustLen_append, rustLen_cons, colon_utf8Size,
      formatByte_len b0 h0, formatByte_len b1 h1, formatByte_len b2 h2,
      formatByte_len b3 h3, formatByte_len b4 h4, formatByte_len b5 h5]
  have hcon : (formatMac [b0, b1, b2, b3, b4, b5]).contains ':' = true := by
    rw [hfmt]
    simp [List.contains, List.elem_eq_mem]
  have hupper : toUpperStr (formatMac [b0, b1, b2, b3, b4, b5]) =
      formatMac [b0, b1, b2, b3, b4, b5] := by
    have u0 : List.map Char.toUpper (formatByte b0) = formatByte b0 :=
      formatByte_upper b0 h0
    have u1 : List.map Char.toUpper (formatByte b1) = formatByte b1 :=
      formatByte_upper b1 h1
    have u2 : List.map Char.toUpper (formatByte b2) = formatByte b2 :=
      formatByte_upper b2 h2
    have u3 : List.map Char.toUpper (formatByte b3) = formatByte b3 :=
      formatByte_upper b3 h3
    have u4 : List.map Char.toUpper (formatByte b4) = formatByte b4 :=
      formatByte_upper b4 h4
    have u5 : List.map Char.toUpper (formatByte b5) = formatByte b5 :=
      formatByte_upper b5 h5
    rw [hfmt]
    simp [toUpperStr, u0, u1, u2, u3, u4, u5, colon_toUpper]
  have hsplit : splitCh ':' (formatMac [b0, b1, b2, b3, b4, b5]) =
      [formatByte b0, formatByte b1, formatByte b2, formatByte b3,
        formatByte b4, formatByte b5] := by
    rw [hfmt,
      splitCh_append_sep _ _ _ (formatByte_ne_colon b0 h0),
      splitCh_append_sep _ _ _ (formatByte_ne_colon b1 h1),
      splitCh_append_sep _ _ _ (formatByte_ne_colon b2 h2),
      splitCh_append_sep _ _ _ (formatByte_ne_colon b3 h3),
      splitCh_append_sep _ _ _ (formatByte_ne_colon b4 h4),
      splitCh_no_sep _ _ (formatByte_ne_colon b5 h5)]
  have hms : macSplit (formatMac [b0, b1, b2, b3, b4, b5]) =
      .ok [formatByte b0, formatByte b1, formatByte b2, formatByte b3,
        formatByte b4, formatByte b5] := by
    simp [macSplit, hsplit]
  have hpp : parseParts [formatByte b0, formatByte b1, formatByte b2,
      formatByte b3, formatByte b4, formatByte b5] =
      .ok [b0, b1, b2, b3, b4, b5] := by
    simp [parseParts,
      formatByte_len b0 h0, formatByte_len b1 h1, formatByte_len b2 h2,
      formatByte_len b3 h3, formatByte_len b4 h4, formatByte_len b5 h5,
      formatByte_parse b0 h0, formatByte_parse b1 h1,
      formatByte_parse b2 h2, formatByte_parse b3 h3,
      formatByte_parse b4 h4, formatByte_parse b5 h5]
  have hsep : ¬((!((formatMac [b0, b1, b2, b3, b4, b5]).contains ':') &&
      !((formatMac [b0, b1, b2, b3, b4, b5]).contains '-')) = true) := by
    rw [hcon]; simp
  rw [validateMac, if_neg (by omega), if_neg hsep, hupper, parseMacBytes,
    hms]
  exact hpp

/-- Witness for C5 at the bytes `00:1A:AB:CD:EF:55`. -/
theorem mac_roundtrip_witness :
    validateMac (formatMac [0x00, 0x1A, 0xAB, 0xCD, 0xEF, 0x55]) =
      .ok [0x00, 0x1A, 0xAB, 0xCD, 0xEF, 0x55] :=
  mac_roundtrip _ _ _ _ _ _ (by decide) (by decide) (by decide)
    (by decide) (by decide) (by decide)

/-- Spec-side population count of a 32-bit value: the sum of its 32 bits.
This is the specification's reading of "population count of set bits"; it
is compared against the per-octet fold the code performs. -/
def popcount32 (m : Nat) : Nat :=
  Finset.sum (Finset.range 32) fun i => m / 2 ^ i % 2

theorem low_bits_eq (M x : Nat) (h : M % 256 = x) :
    ∀ t < 8, M / 2 ^ t % 2 = x / 2 ^ t % 2 := by
  intro t ht
  interval_cases t <;> norm_num <;> omega

theorem countOnes_eq_sum (n : Nat) :
    countOnes n = Finset.sum (Finset.range 8) (fun t => n / 2 ^ t % 2) := by
  simp [countOnes, Finset.sum_range_succ]

theorem popcount32_split (M : Nat) :
    popcount32 M =
      Finset.sum (Finset.range 8) (fun t => M / 2 ^ t % 2) +
      Finset.sum (Finset.range 8) (fun t => M / 256 / 2 ^ t % 2) +
      Finset.sum (Finset.range 8) (fun t => M / 65536 / 2 ^ t % 2) +
      Finset.sum (Finset.range 8) (fun t => M / 16777216 / 2 ^ t % 2) := by
  simp only [popcount32, Finset.sum_range_succ, Finset.sum_range_zero,
    Nat.div_div_eq_div_mul]
  norm_num
  omega

/-- C7: the prefix length derived from an interface netmask equals the
total population count of set bits of the 32-bit mask value assembled
from its four octets; in particular `255.255.255.0` gives 24 and
`255.255.0.0` gives 16. -/
theorem prefix_len_popcount (a b c d : Nat) (ha : a < 256) (hb : b < 256)
    (hc : c < 256) (hd : d < 256) :
    prefixLenOfMask [a, b, c, d] =
      popcount32 (((a * 256 + b) * 256 + c) * 256 + d) ∧
    prefixLenOfMask [255, 255, 255, 0] = 24 ∧
    prefixLenOfMask [255, 255, 0, 0] = 16 := by
  refine ⟨?_, by decide, by decide⟩
  have e1 : Finset.sum (Finset.range 8)
      (fun t => (((a * 256 + b) * 256 + c) * 256 + d) / 2 ^ t % 2) =
      Finset.sum (Finset.range 8) (fun t => d / 2 ^ t % 2) :=
    Finset.sum_congr rfl fun t ht =>
      low_bits_eq _ d (by omega) t (Finset.mem_range.mp ht)
  have e2 : Finset.sum (Finset.range 8)
      (fun t => (((a * 256 + b) * 256 + c) * 256 + d) / 256 / 2 ^ t % 2) =
      Finset.sum (Finset.range 8) (fun t => c / 2 ^ t % 2) :=
    Finset.sum_congr rfl fun t ht =>
      low_bits_eq _ c (by omega) t (Finset.mem_range.mp ht)
  have e3 : Finset.sum (Finset.range 8)
      (fun t => (((a * 256 + b) * 256 + c) * 256 + d) / 65536 / 2 ^ t % 2) =
      Finset.sum (Finset.range 8) (fun t => b / 2 ^ t % 2) :=
    Finset.sum_congr rfl fun t ht =>
      low_bits_eq _ b (by omega) t (Finset.mem_range.mp ht)
  have e4 : Finset.sum (Finset.range 8)
      (fun t => (((a * 256 + b) * 256 + c) * 256 + d) / 16777216 / 2 ^ t % 2) =
      Finset.sum (Finset.range 8) (fun t => a / 2 ^ t % 2) :=
    Finset.sum_congr rfl fun t ht =>
      low_bits_eq _ a (by omega) t (Finset.mem_range.mp ht)
  rw [popcount32_split, e1, e2, e3, e4, ← countOnes_eq_sum,
    ← countOnes_eq_sum, ← countOnes_eq_sum, ← countOnes_eq_sum]
  simp [prefixLenOfMask]
  omega

/-- Witness for C7 at the netmask `255.255.255.0`. -/
theorem prefix_len_popcount_witness :
    prefixLenOfMask [255, 255, 255, 0] =
      popcount32 (((255 * 256 + 255) * 256 + 255) * 256 + 0) :=
  (prefix_len_popcount 255 255 255 0 (by decide) (by decide) (by decide)
    (by decide)).1

/-- C8: a successful `send_magic_packet` sends its datagram to the
network's broadcast address on UDP port 9, where the broadcast address is
the address OR-ed with the inverted network mask; for `192.168.1.0/24`
the broadcast address is `192.168.1.255`. -/
theorem wol_destination (env : Env) (mac : RStr) (net : Ipv4NetT)
    (pkt : Packet) (hok : send_magic_packet env mac net = .ok pkt)
    (haddr : net.addr < 2 ^ 32) (hpl : net.prefixLen ≤ 32) :
    pkt.destAddr = broadcast net ∧ pkt.destPort = 9 ∧
    broadcast net =
      (net.addr &&& netmask net) ||| ((2 ^ 32 - 1) ^^^ netmask net) ∧
    broadcast ⟨0xC0A80100, 24⟩ = 0xC0A801FF := by
  have hdest : pkt.destAddr = broadcast net ∧ pkt.destPort = 9 := by
    cases hp : parseMacBytes mac with
    | error e => rw [send_magic_packet, hp] at hok; exact absurd hok (by simp)
    | ok bs =>
      rw [send_magic_packet, hp] at hok
      cases hs : env.sockOp mac net <;> rw [hs] at hok <;>
        simp only [Except.ok.injEq, reduceCtorEq] at hok
      · rw [← hok]
        exact ⟨rfl, rfl⟩
  have hinv : (2 ^ 32 - 1) ^^^ netmask net = hostmask net := by
    apply Nat.eq_of_testBit_eq
    intro i
    simp only [netmask, hostmask, Nat.testBit_xor, Nat.testBit_mod_two_pow,
      Nat.testBit_shiftLeft, Nat.testBit_two_pow_sub_one]
    by_cases hi32 : i < 32
    · by_cases hik : i < 32 - net.prefixLen
      · simp [hi32, hik, Nat.not_le.mpr hik]
      · have hle : 32 - net.prefixLen ≤ i := Nat.not_lt.mp hik
        have hsub : i - (32 - net.prefixLen) < 32 := by omega
        simp [hi32, hik, hle, hsub]
    · have h1 : ¬(i < 32 - net.prefixLen) := by omega
      simp [hi32, h1]
  have hbc : broadcast net =
      (net.addr &&& netmask net) ||| ((2 ^ 32 - 1) ^^^ netmask net) := by
    rw [hinv]
    apply Nat.eq_of_testBit_eq
    intro i
    simp only [broadcast, Nat.testBit_lor, Nat.testBit_land]
    by_cases hik : i < 32 - net.prefixLen
    · have hh : Nat.testBit (hostmask net) i = true := by
        simp [hostmask, Nat.testBit_two_pow_sub_one, hik]
      rw [hh]; simp
    · have hh : Nat.testBit (hostmask net) i = false := by
        simp [hostmask, Nat.testBit_two_pow_sub_one, hik]
      rw [hh]
      by_cases hi32 : i < 32
      · have hm : Nat.testBit (netmask net) i = true := by
          simp only [netmask, Nat.testBit_mod_two_pow, Nat.testBit_shiftLeft,
            Nat.testBit_two_pow_sub_one, Bool.and_eq_true, decide_eq_true_eq,
            ge_iff_le]
          omega
        rw [hm]; simp
      · have ha0 : Nat.testBit net.addr i = false :=
          Nat.testBit_lt_two_pow (lt_of_lt_of_le haddr
            (Nat.pow_le_pow_right (by norm_num) (Nat.not_lt.mp hi32)))
        rw [ha0]; simp
  exact ⟨hdest.1, hdest.2, hbc, by decide⟩

/-- Witness for C8: a concrete all-ok send on `192.168.1.0/24`. -/
theorem wol_destination_witness :
    (Packet.mk 0xC0A801FF 9
        (buildMagicPacket [0x00, 0x11, 0x22, 0x33, 0x44, 0x55])).destAddr =
      broadcast ⟨0xC0A80100, 24⟩ ∧
    (Packet.mk 0xC0A801FF 9
        (buildMagicPacket [0x00, 0x11, 0x22, 0x33, 0x44, 0x55])).destPort = 9 := by
  have h := wol_destination ⟨false, [], false, fun _ _ => .ok⟩
    ("00:11:22:33:44:55".toList) ⟨0xC0A80100, 24⟩
    (Packet.mk 0xC0A801FF 9
      (buildMagicPacket [0x00, 0x11, 0x22, 0x33, 0x44, 0x55]))
    (by rfl) (by decide) (by decide)
  exact ⟨h.1, h.2.1⟩

theorem parseNets_error_of_bad (args : List RStr) (s : RStr)
    (hm : s ∈ args) (hp : parseIpv4Net s = none) :
    ∃ t, parseNets args = .error t := by
  induction args with
  | nil => cases hm
  | cons x rest ih =>
    cases hx : parseIpv4Net x with
    | none => exact ⟨x, by simp only [parseNets, hx]⟩
    | some n =>
      rcases List.mem_cons.mp hm with rfl | hm2
      · rw [hp] at hx; cases hx
      · obtain ⟨t, ht⟩ := ih hm2
        exact ⟨t, by simp only [parseNets, hx, ht]⟩

/-- C6: if any supplied network option string fails to parse as CIDR,
the run ends with exit code 1 and no packet is sent (networks are
resolved before any MAC is processed). -/
theorem bad_cidr_aborts (env : Env) (inp : Input) (args : List RStr)
    (s : RStr) (ha : inp.netArgs = some args) (hm : s ∈ args)
    (hp : parseIpv4Net s = none) :
    (wolMain env inp).status = .exited 1 ∧ (wolMain env inp).packets = [] := by
  obtain ⟨t, ht⟩ := parseNets_error_of_bad args s hm hp
  rcases inp with ⟨fileArg, cliMacs, netArgs, verbose⟩
  simp only at ha
  subst ha
  cases fileArg with
  | none => simp [wolMain, ht]
  | some f =>
    cases hok : f.okPath with
    | false => simp [wolMain, hok]
    | true => simp [wolMain, hok, ht]

/-- Witness for C6: `not-a-cidr` as the only network option ends the run
with exit 1 and no packets. -/
theorem bad_cidr_aborts_witness :
    (wolMain ⟨false, [], false, fun _ _ => .ok⟩
        ⟨none, ["00:11:22:33:44:55".toList], some ["not-a-cidr".toList],
          false⟩).status = .exited 1 ∧
    (wolMain ⟨false, [], false, fun _ _ => .ok⟩
        ⟨none, ["00:11:22:33:44:55".toList], some ["not-a-cidr".toList],
          false⟩).packets = [] :=
  bad_cidr_aborts _ _ _ ("not-a-cidr".toList) rfl (by simp) (by decide)

/-- C9: a line-read error stops file reading at that line: the run
behaves exactly as if the file ended just before the failing line — the
MACs gathered so far are kept, every later line is dropped, and the
program's output is unchanged (nothing is reported). -/
theorem file_read_error_truncates :
    (∀ (pre : List RStr) (rest : List (Option RStr)),
      read_mac_addresses_from_file (pre.map some ++ none :: rest) =
        read_mac_addresses_from_file (pre.map some)) ∧
    (∀ (env : Env) (pre : List RStr) (rest : List (Option RStr))
        (cli : List RStr) (na : Option (List RStr)) (v : Bool),
      wolMain env ⟨some ⟨true, pre.map some ++ none :: rest⟩, cli, na, v⟩ =
        wolMain env ⟨some ⟨true, pre.map some⟩, cli, na, v⟩) := by
  have key : ∀ (pre : List RStr) (rest : List (Option RStr)),
      read_mac_addresses_from_file (pre.map some ++ none :: rest) =
        read_mac_addresses_from_file (pre.map some) := by
    intro pre rest
    induction pre with
    | nil => rfl
    | cons l t ih =>
      simp only [List.map_cons, List.cons_append,
        read_mac_addresses_from_file]
      split_ifs <;> simp [ih]
  refine ⟨key, ?_⟩
  intro env pre rest cli na v
  simp only [wolMain, key pre rest]

/-- C10: MAC-part validation happens inside the per-network loop after
the socket is bound, so with an empty resolved network list a MAC that
passes the length and separator checks — hex-valid or not — produces no
packet, no error line and no verbose line; and the bind (whose failure
panics) still happens even with no networks. -/
theorem empty_networks_silent (env : Env) (m : RStr) (v : Bool)
    (h17 : rustLen m = 17)
    (hsep : (m.contains ':' || m.contains '-') = true)
    (hb : env.bindFails = false) (hif : env.ifEnumFails = false)
    (hiv : env.ifV4 = []) :
    wolMain env ⟨none, [m], none, v⟩ = ⟨.completed, [], []⟩ ∧
    (∀ env2 : Env, env2.bindFails = true →
      macLoop env2 [] v [m] = ([], [], true)) := by
  have hmem : ':' ∈ m ∨ '-' ∈ m := by simpa using hsep
  have hcond : ¬(':' ∉ m ∧ '-' ∉ m) := by tauto
  constructor
  · simp [wolMain, hif, hiv, get_local_ip_nets, macLoop, h17, hcond,
      send_wol_packet, hb, sendLoop]
  · intro env2 hb2
    simp [macLoop, h17, hcond, send_wol_packet, hb2]

/-- Witness for C10 at the MAC string `0Z:11:22:33:44:55`, which passes
the length and separator checks but is not hexadecimal. -/
theorem empty_networks_silent_witness :
    wolMain ⟨false, [], false, fun _ _ => .ok⟩
        ⟨none, ["0Z:11:22:33:44:55".toList], none, false⟩ =
      ⟨.completed, [], []⟩ ∧
    macLoop ⟨false, [], true, fun _ _ => .ok⟩ [] false
        ["0Z:11:22:33:44:55".toList] = ([], [], true) := by
  obtain ⟨h1, h2⟩ := empty_networks_silent ⟨false, [], false, fun _ _ => .ok⟩
    ("0Z:11:22:33:44:55".toList) false (by decide) (by decide) rfl rfl rfl
  exact ⟨h1, h2 _ rfl⟩

/-- Counterexample to C3: the file line `00:11:22:33:44:gg` fails hex
validation, yet it is kept by the file reader and the run prints an error
line for it — it is not silently dropped. -/
theorem file_line_reported_counterexample :
    read_mac_addresses_from_file [some ("00:11:22:33:44:gg".toList)] =
      ["00:11:22:33:44:gg".toList] ∧
    wolMain ⟨false, [(0xC0A80105, [255, 255, 255, 0])], false,
        fun _ _ => .ok⟩
      ⟨some ⟨true, [some ("00:11:22:33:44:gg".toList)]⟩, [], none, false⟩ =
      ⟨.completed,
        [.sendError (.parse .notHex) ("00:11:22:33:44:GG".toList)], []⟩ := by
  constructor
  · decide
  · decide

/-- C3 (amended): only file lines failing the length or separator check
are silently dropped by the file reader.  Every surviving file line is
processed exactly like a CLI argument (a file run equals the CLI run on
the reader's output, the positional arguments being ignored), and a CLI
argument failing any check — length, separator, or the part checks
during sending — is reported with the offending string and processing
continues with the remaining addresses; in particular a file line
failing part count, part length or hex parse is kept and reported. -/
theorem file_line_failure_policy :
    (∀ (l : RStr) (rest : List (Option RStr)),
      rustTrim l ≠ [] → startsWithHash (rustTrim l) = false →
      startsWithSlashes (rustTrim l) = false →
      (rustLen (rustTrim l) ≠ 17 ∨
        ((rustTrim l).contains ':' || (rustTrim l).contains '-') = false) →
      read_mac_addresses_from_file (some l :: rest) =
        read_mac_addresses_from_file rest) ∧
    (∀ (env : Env) (lines : List (Option RStr)) (cli : List RStr)
        (na : Option (List RStr)) (v : Bool),
      wolMain env ⟨some ⟨true, lines⟩, cli, na, v⟩ =
        wolMain env ⟨none, read_mac_addresses_from_file lines, na, v⟩) ∧
    (∀ (env : Env) (nets : List Ipv4NetT) (v : Bool) (m : RStr)
        (rest : List RStr), rustLen m ≠ 17 →
      macLoop env nets v (m :: rest) =
        (.macLenError m :: (macLoop env nets v rest).1,
         (macLoop env nets v rest).2.1, (macLoop env nets v rest).2.2)) ∧
    (∀ (env : Env) (nets : List Ipv4NetT) (v : Bool) (m : RStr)
        (rest : List RStr), rustLen m = 17 → m.contains ':' = false →
      m.contains '-' = false →
      macLoop env nets v (m :: rest) =
        (.macSepError m :: (macLoop env nets v rest).1,
         (macLoop env nets v rest).2.1, (macLoop env nets v rest).2.2)) ∧
    (∀ (env : Env) (v : Bool) (m : RStr) (rest : List RStr) (n : Ipv4NetT)
        (ns : List Ipv4NetT) (e : ValErr), env.bindFails = false →
      rustLen m = 17 → (m.contains ':' || m.contains '-') = true →
      parseMacBytes (toUpperStr m) = .error e →
      macLoop env (n :: ns) v (m :: rest) =
        (.sendError (.parse e) (toUpperStr m) ::
           (macLoop env (n :: ns) v rest).1,
         (macLoop env (n :: ns) v rest).2.1,
         (macLoop env (n :: ns) v rest).2.2)) ∧
    (∀ (env : Env) (l : RStr) (e : ValErr) (v : Bool) (n : Nat × List Nat)
        (ns : List (Nat × List Nat)),
      rustTrim l = l → l ≠ [] → startsWithHash l = false →
      startsWithSlashes l = false → rustLen l = 17 →
      (l.contains ':' || l.contains '-') = true →
      parseMacBytes (toUpperStr l) = .error e →
      env.bindFails = false → env.ifEnumFails = false →
      env.ifV4 = n :: ns →
      (wolMain env ⟨some ⟨true, [some l]⟩, [], none, v⟩).msgs =
        [.sendError (.parse e) (toUpperStr l)]) := by
  refine ⟨?_, ?_, ?_, ?_, ?_, ?_⟩
  · intro l rest h1 h2 h3 h4
    rcases h4 with h4 | h4
    · simp [read_mac_addresses_from_file, h1, h2, h3, h4]
    · have hni : ':' ∉ rustTrim l ∧ '-' ∉ rustTrim l := by simpa using h4
      by_cases hl : rustLen (rustTrim l) ≠ 17
      · simp [read_mac_addresses_from_file, h1, h2, h3, hl]
      · simp [read_mac_addresses_from_file, h1, h2, h3, hl, hni]
  · intro env lines cli na v
    simp [wolMain]
  · intro env nets v m rest h
    simp [macLoop, h]
  · intro env nets v m rest h17 hc hd
    have hni : ':' ∉ m ∧ '-' ∉ m := ⟨by simpa using hc, by simpa using hd⟩
    simp [macLoop, h17, hni]
  · intro env v m rest n ns e hb h17 hsep hperr
    have hmem : ':' ∈ m ∨ '-' ∈ m := by simpa using hsep
    have hcond : ¬(':' ∉ m ∧ '-' ∉ m) := by tauto
    simp [macLoop, h17, hcond, send_wol_packet, hb, sendLoop,
      send_magic_packet, hperr]
  · intro env l e v n ns ht hne hh hs h17 hsep hperr hb hif hiv
    have hmem : ':' ∈ l ∨ '-' ∈ l := by simpa using hsep
    have hcond : ¬(':' ∉ l ∧ '-' ∉ l) := by tauto
    have hread : read_mac_addresses_from_file [some l] = [l] := by
      simp only [read_mac_addresses_from_file]
      rw [ht]
      simp [hne, hh, hs, h17, hcond]
    simp [wolMain, hread, hif, hiv, get_local_ip_nets, macLoop, h17, hcond,
      send_wol_packet, hb, sendLoop, send_magic_packet, hperr]

/-- Witness for the amended C3: a short line is silently dropped; a
one-line file run equals the CLI run on the surviving line; a too-short
CLI argument and a hex-invalid CLI argument are each reported while the
following address is still processed; and the hex-invalid file line of
the counterexample is reported. -/
theorem file_line_failure_policy_witness :
    read_mac_addresses_from_file [some ("00:11".toList)] =
      read_mac_addresses_from_file [] ∧
    wolMain ⟨false, [(0xC0A80105, [255, 255, 255, 0])], false,
        fun _ _ => .ok⟩
      ⟨some ⟨true, [some ("00:11:22:33:44:gg".toList)]⟩,
        ["66:77:88:99:AA:BB".toList], none, false⟩ =
      wolMain ⟨false, [(0xC0A80105, [255, 255, 255, 0])], false,
        fun _ _ => .ok⟩
      ⟨none, read_mac_addresses_from_file
        [some ("00:11:22:33:44:gg".toList)], none, false⟩ ∧
    macLoop ⟨false, [(0xC0A80105, [255, 255, 255, 0])], false,
        fun _ _ => .ok⟩ [⟨0xC0A80105, 24⟩] false
      ["00:11".toList, "66:77:88:99:AA:BB".toList] =
      (.macLenError ("00:11".toList) ::
        (macLoop ⟨false, [(0xC0A80105, [255, 255, 255, 0])], false,
          fun _ _ => .ok⟩ [⟨0xC0A80105, 24⟩] false
          ["66:77:88:99:AA:BB".toList]).1,
       (macLoop ⟨false, [(0xC0A80105, [255, 255, 255, 0])], false,
          fun _ _ => .ok⟩ [⟨0xC0A80105, 24⟩] false
          ["66:77:88:99:AA:BB".toList]).2.1,
       (macLoop ⟨false, [(0xC0A80105, [255, 255, 255, 0])], false,
          fun _ _ => .ok⟩ [⟨0xC0A80105, 24⟩] false
          ["66:77:88:99:AA:BB".toList]).2.2) ∧
    macLoop ⟨false, [(0xC0A80105, [255, 255, 255, 0])], false,
        fun _ _ => .ok⟩ [⟨0xC0A80105, 24⟩] false
      ["00:11:22:33:44:gg".toList, "66:77:88:99:AA:BB".toList] =
      (.sendError (.parse .notHex) (toUpperStr ("00:11:22:33:44:gg".toList)) ::
        (macLoop ⟨false, [(0xC0A80105, [255, 255, 255, 0])], false,
          fun _ _ => .ok⟩ [⟨0xC0A80105, 24⟩] false
          ["66:77:88:99:AA:BB".toList]).1,
       (macLoop ⟨false, [(0xC0A80105, [255, 255, 255, 0])], false,
          fun _ _ => .ok⟩ [⟨0xC0A80105, 24⟩] false
          ["66:77:88:99:AA:BB".toList]).2.1,
       (macLoop ⟨false, [(0xC0A80105, [255, 255, 255, 0])], false,
          fun _ _ => .ok⟩ [⟨0xC0A80105, 24⟩] false
          ["66:77:88:99:AA:BB".toList]).2.2) ∧
    (wolMain ⟨false, [(0xC0A80105, [255, 255, 255, 0])], false,
          fun _ _ => .ok⟩
        ⟨some ⟨true, [some ("00:11:22:33:44:gg".toList)]⟩, [], none,
          false⟩).msgs =
      [.sendError (.parse .notHex) (toUpperStr ("00:11:22:33:44:gg".toList))] := by
  refine ⟨?_, ?_, ?_, ?_, ?_⟩
  · exact file_line_failure_policy.1 ("00:11".toList) [] (by decide)
      (by decide) (by decide) (Or.inl (by decide))
  · exact file_line_failure_policy.2.1 _ _ _ none false
  · exact file_line_failure_policy.2.2.1 _ _ false ("00:11".toList) _
      (by decide)
  · exact file_line_failure_policy.2.2.2.2.1 _ false
      ("00:11:22:33:44:gg".toList) _ _ [] .notHex rfl (by decide)
      (by decide) (by rfl)
  · exact file_line_failure_policy.2.2.2.2.2 _ _ .notHex false
      (0xC0A80105, [255, 255, 255, 0]) [] (by decide) (by decide)
      (by decide) (by decide) (by decide) (by decide) (by rfl) rfl rfl rfl

/-- Counterexample to C4: a bind failure is not reported — the unwrap at
src/main.rs line 116 panics, crashing the process. -/
theorem bind_failure_panics_counterexample :
    wolMain ⟨false, [(0xC0A80105, [255, 255, 255, 0])], true,
        fun _ _ => .ok⟩
      ⟨none, ["00:11:22:33:44:55".toList], none, false⟩ =
      ⟨.panicked, [], []⟩ := by
  decide

/-- C4 (amended): broadcast-enable and send failures are reported with
the failing MAC as context and abort the remaining networks for that MAC
only; when the bind succeeds the run never panics; and after any one
MAC's processing the loop always continues with the remaining MAC
addresses.  (A bind failure, by contrast, panics the process.) -/
theorem socket_error_policy :
    (∀ (env : Env) (mac : RStr) (bs : List Nat) (n : Ipv4NetT)
        (rest : List Ipv4NetT) (v : Bool),
      parseMacBytes mac = .ok bs → env.sockOp mac n = .broadcastFail →
      sendLoop env mac (n :: rest) v =
        ([.sendError .broadcastFail mac], [])) ∧
    (∀ (env : Env) (mac : RStr) (bs : List Nat) (n : Ipv4NetT)
        (rest : List Ipv4NetT) (v : Bool),
      parseMacBytes mac = .ok bs → env.sockOp mac n = .sendFail →
      sendLoop env mac (n :: rest) v = ([.sendError .sendFail mac], [])) ∧
    (∀ (env : Env) (nets : List Ipv4NetT) (v : Bool) (macs : List RStr),
      env.bindFails = false → (macLoop env nets v macs).2.2 = false) ∧
    (∀ (env : Env) (nets : List Ipv4NetT) (v : Bool) (m : RStr)
        (macs : List RStr), env.bindFails = false →
      ∃ ms ps, macLoop env nets v (m :: macs) =
        (ms ++ (macLoop env nets v macs).1,
         ps ++ (macLoop env nets v macs).2.1,
         (macLoop env nets v macs).2.2)) := by
  refine ⟨?_, ?_, ?_, ?_⟩
  · intro env mac bs n rest v hp hsock
    simp [sendLoop, send_magic_packet, hp, hsock]
  · intro env mac bs n rest v hp hsock
    simp [sendLoop, send_magic_packet, hp, hsock]
  · intro env nets v macs hb
    induction macs with
    | nil => rfl
    | cons m rest ih =>
      simp only [macLoop, send_wol_packet, hb]
      split_ifs <;> simp_all
  · intro env nets v m macs hb
    by_cases h1 : rustLen m ≠ 17
    · exact ⟨[.macLenError m], [], by simp [macLoop, h1]⟩
    · by_cases h2 : ':' ∉ m ∧ '-' ∉ m
      · exact ⟨[.macSepError m], [], by simp [macLoop, h1, h2]⟩
      · exact ⟨(sendLoop env (toUpperStr m) nets v).1,
          (sendLoop env (toUpperStr m) nets v).2,
          by simp [macLoop, h1, h2, send_wol_packet, hb]⟩

/-- Witness for the amended C4: a concrete broadcast-enable failure is
reported and the run does not panic. -/
theorem socket_error_policy_witness :
    sendLoop ⟨false, [], false, fun _ _ => .broadcastFail⟩
        ("00:11:22:33:44:55".toList) [⟨0xC0A80100, 24⟩] false =
      ([.sendError .broadcastFail ("00:11:22:33:44:55".toList)], []) ∧
    (macLoop ⟨false, [], false, fun _ _ => .broadcastFail⟩
        [⟨0xC0A80100, 24⟩] false
        ["00:11:22:33:44:55".toList, "66:77:88:99:AA:BB".toList]).2.2 =
      false := by
  constructor
  · exact socket_error_policy.1 _ _ [0x00, 0x11, 0x22, 0x33, 0x44, 0x55]
      _ [] false (by rfl) rfl
  · exact socket_error_policy.2.2.1 _ _ false _ rfl

end Wol
